import Mathlib

/-!
Verification of the HDS (HTTP Dynamic Streaming) stream filter
(modules/stream_filter/hds/hds.c) against its natural-language
specification.

The C module is shallowly embedded here:

* byte buffers are `List Nat` (each element one byte), pointers into a
  buffer are absolute `Nat` offsets;
* machine integers are `Nat` with explicit reductions modulo `2 ^ 32`
  or `2 ^ 64` at the assignments where the C code can wrap;
* pointer-difference comparisons `data_end - data_p < k` (with `k > 0`)
  are modelled with truncated `Nat` subtraction, which agrees with the
  signed C comparison in both the `data_p ≤ data_end` and the
  `data_p > data_end` case;
* C loops whose termination depends on shared-state mutation by other
  threads (the reader loops) take an explicit fuel argument; running out
  of fuel returns what has been accumulated so far, which models the
  reader busy-waiting without delivering further bytes;
* `NULL` pointer results are `Option.none`.
-/

/-! ## Byte-level primitives -/

/-- Read one byte (uint8) at absolute offset `p`; out-of-range reads the
calloc/garbage value, modelled as 0. -/
def readU8 (d : List Nat) (p : Nat) : Nat := d.getD p 0

/-- Big-endian 32-bit read, the model of the C macro U32_AT. -/
def readU32 (d : List Nat) (p : Nat) : Nat :=
  readU8 d p * 2 ^ 24 + readU8 d (p + 1) * 2 ^ 16 +
    readU8 d (p + 2) * 2 ^ 8 + readU8 d (p + 3)

/-- Big-endian 64-bit read, the model of the C macro U64_AT. -/
def readU64 (d : List Nat) (p : Nat) : Nat :=
  readU32 d p * 2 ^ 32 + readU32 d (p + 4)

/-- Four consecutive bytes, used to model 4-byte memcmp tag tests. -/
def readTag (d : List Nat) (p : Nat) : List Nat :=
  [readU8 d p, readU8 d (p + 1), readU8 d (p + 2), readU8 d (p + 3)]

/-- First offset `q` with `pos ≤ q < pos + len` holding a zero byte:
the model of memchr(data_p, 0, len). -/
def memchrZ (d : List Nat) : Nat → Nat → Option Nat
  | _, 0 => none
  | pos, len + 1 => if readU8 d pos = 0 then some pos else memchrZ d (pos + 1) len

/-- Length of the C string starting at `pos`, looking at most `len` bytes:
the model of strnlen. -/
def strnlenM (d : List Nat) (pos len : Nat) : Nat :=
  match memchrZ d pos len with
  | some q => q - pos
  | none => len

/-- Bytes of the C string starting at `pos` (at most `len` bytes): the
model of strndup. -/
def strndupM (d : List Nat) (pos len : Nat) : List Nat :=
  (d.drop pos).take (strnlenM d pos len)

/-- Truncated uint64 subtraction `a - b` (two's-complement wrap). -/
def u64sub (a b : Nat) : Nat := (a + 2 ^ 64 - b % 2 ^ 64) % 2 ^ 64

/-! ## Data model: chunks (struct chunk_s) -/

/-- Model of `struct chunk_s`.  The chain's `next` pointers are modelled
by keeping the chunks in a `List`; `data` is `none` until the chunk is
downloaded (calloc zero-initialises every field). -/
structure Chunk where
  duration : Nat := 0
  timestamp : Nat := 0
  frag_num : Nat := 0
  seg_num : Nat := 0
  frun_entry : Nat := 0
  data_len : Nat := 0
  mdat_pos : Nat := 0
  mdat_len : Nat := 0
  mdat_data : List Nat := []
  data : Option (List Nat) := none
  failed : Bool := false
  eof : Bool := false
deriving Repr, DecidableEq

/-! ## Data model: per-stream tables (struct hds_stream_s) -/

/-- Model of `segment_run_t`. -/
structure SegmentRun where
  first_segment : Nat := 0
  fragments_per_segment : Nat := 0
deriving Repr, DecidableEq

/-- Model of `fragment_run_t`. -/
structure FragmentRun where
  fragment_number_start : Nat := 0
  fragment_duration : Nat := 0
  fragment_timestamp : Nat := 0
  discont : Nat := 0
deriving Repr, DecidableEq

/-- The fields of `hds_stream_t` consumed by the bootstrap parsers, the
fragment indexer and the read path.  The chunk chain and the
synchronisation objects are kept separately; `chunks_livereadpos` and
`chunks_downloadpos` are thread-coordination cursors carrying no claim
and are not modelled.  The C segment/fragment run tables are fixed-size
zero-initialised arrays paired with a count; they are modelled as lists
(reads beyond the list give the zero entry, matching the zeroed array). -/
structure HdsTables where
  quality_segment_modifier : Option (List Nat) := none
  download_leadtime : Nat := 0
  afrt_timescale : Nat := 0
  timescale : Nat := 0
  live_current_time : Nat := 0
  movie_id : List Nat := []
  server_entries : List (List Nat) := []
  segment_runs : List SegmentRun := []
  segment_run_count : Nat := 0
  fragment_runs : List FragmentRun := []
  fragment_run_count : Nat := 0
deriving Repr, DecidableEq

/-- Per-open-stream state (`struct stream_sys_t` plus the single
`hds_stream_t` that Read/Peek use, as the code always selects stream 0). -/
structure SysState where
  live : Bool := false
  duration_seconds : Nat := 0
  flv_header_bytes_sent : Nat := 0
  tables : HdsTables := {}
  chain : List Chunk := []
deriving Repr, DecidableEq

/-! ## The synthetic FLV header -/

/-- The 13 literal bytes of the static `flv_header` array. -/
def flvHeaderBytes : List Nat :=
  [0x46, 0x4C, 0x56, 0x01, 0x05, 0x00, 0x00, 0x00, 0x09, 0x00, 0x00, 0x00, 0x00]

/-- Model of `send_flv_header`: returns the bytes copied into the caller
buffer and the updated `flv_header_bytes_sent` (unchanged when peeking). -/
def send_flv_header (sent iRead : Nat) (peek : Bool) : List Nat × Nat :=
  let toBeRead := if iRead > 13 - sent then 13 - sent else iRead
  ((flvHeaderBytes.drop sent).take toBeRead,
    if peek then sent else sent + toBeRead)

/-! ## Peek -/

/-- Result of a Peek call: a pointer into the static FLV header (with the
offset and the returned length), a pointer into the head chunk's mdat
payload (the exposed bytes and the returned length), or a zero return. -/
inductive PeekResult where
  | header (offset len : Nat)
  | mdat (exposed : List Nat) (len : Nat)
  | nothing
deriving Repr, DecidableEq

/-- Model of `Peek`.  (The guard `vlc_array_count == 0` is outside the
model: the claims concern an opened stream, whose array holds stream 0.) -/
def PeekOp (st : SysState) (iPeek : Nat) : PeekResult :=
  if st.flv_header_bytes_sent < 13 then
    .header st.flv_header_bytes_sent (13 - st.flv_header_bytes_sent)
  else
    match st.chain.head? with
    | some c =>
      if ¬ c.failed ∧ c.data ≠ none then
        .mdat (c.mdat_data.drop c.mdat_pos)
          (if c.mdat_len - c.mdat_pos < iPeek then c.mdat_len - c.mdat_pos else iPeek)
      else .nothing
    | none => .nothing

/-! ## Claim C10: Peek while FLV header is unsent -/

/-- Claim C10: whenever Peek is called while fewer than 13 FLV header
bytes have been sent, it returns a pointer into the static header at
offset `flv_header_bytes_sent` and length `13 - flv_header_bytes_sent`,
ignoring the requested size, for every requested size and every chunk
chain — in particular it never exposes mdat data in that state. -/
theorem peek_header_unsent (st : SysState) (iPeek : Nat)
    (h : st.flv_header_bytes_sent < 13) :
    PeekOp st iPeek =
      PeekResult.header st.flv_header_bytes_sent (13 - st.flv_header_bytes_sent) := by
  unfold PeekOp
  simp [h]

/-- Witness for C10: with 5 header bytes sent, a downloaded chunk at the
head and a request of only 2 bytes, Peek returns the header pointer at
offset 5 with length 8 (exceeding the requested 2). -/
theorem peek_header_unsent_witness :
    PeekOp { flv_header_bytes_sent := 5,
             chain := [{ data := some [1, 2, 3], mdat_data := [1, 2, 3],
                         mdat_len := 3 }] } 2 = PeekResult.header 5 8 ∧ 8 > 2 :=
  ⟨peek_header_unsent _ 2 (by decide), by decide⟩

/-! ## Fragment indexer (generate_new_chunk) -/

/-- The walk over `fragment_runs[frun_entry ..]` inside
`generate_new_chunk`.  `rem` is `fragment_run_count - i`, the number of
loop iterations left; the C for-loop falls off the end exactly when
`frun_entry == fragment_run_count`, which the code turns into a NULL
result, while an initial `frun_entry` beyond the table skips the loop and
keeps the chunk as is. -/
def genFragWalk (runs : List FragmentRun) (count : Nat) :
    Nat → Nat → Chunk → Option (Chunk × Nat)
  | 0, i, c => if i = count then none else some (c, i)
  | rem + 1, i, c =>
    let fr := runs.getD i {}
    if fr.fragment_duration = 0 then
      -- discontinuity entry: adopt the successor, fail if it is last
      if i = count - 1 then none
      else
        let fr1 := runs.getD (i + 1) {}
        some ({ c with frag_num := fr1.fragment_number_start,
                       duration := fr1.fragment_duration,
                       timestamp := fr1.fragment_timestamp }, i + 1)
    else
      let c :=
        if c.frag_num = 0 then
          if i = count - 1 ∨
              (c.timestamp ≥ fr.fragment_timestamp ∧
                c.timestamp < (runs.getD (i + 1) {}).fragment_timestamp) then
            { c with
              frag_num := (fr.fragment_number_start +
                u64sub c.timestamp fr.fragment_timestamp / fr.fragment_duration) % 2 ^ 32,
              duration := fr.fragment_duration }
          else c
        else c
      if fr.fragment_number_start ≤ c.frag_num ∧
          (i = count - 1 ∨
            (runs.getD (i + 1) {}).fragment_number_start > c.frag_num) then
        some ({ c with duration := fr.fragment_duration,
                       timestamp := (fr.fragment_timestamp +
                         fr.fragment_duration *
                           (c.frag_num - fr.fragment_number_start)) % 2 ^ 64 }, i)
      else genFragWalk runs count rem (i + 1) c

/-- The walk over `segment_runs` computing the segment number.  `accum`
is the uint64 `fragments_accum` and `rem` is `segment_run_count - i`;
with a non-empty table the loop always ends through its break, so the
`rem = 0` case is only the empty-table case where `segment` stays 0. -/
def segWalk (sruns : List SegmentRun) (count : Nat) :
    Nat → Nat → Nat → Nat → Nat
  | 0, _, _, _ => 0
  | rem + 1, i, fragNum, accum =>
    let sr := sruns.getD i {}
    let segment :=
      (sr.first_segment + u64sub fragNum accum / sr.fragments_per_segment) % 2 ^ 32
    if i + 1 = count ∨ (sruns.getD (i + 1) {}).first_segment > segment then
      segment
    else
      segWalk sruns count rem (i + 1) fragNum
        ((accum + ((sruns.getD (i + 1) {}).first_segment - sr.first_segment) *
            sr.fragments_per_segment % 2 ^ 32) % 2 ^ 64)

/-- Model of `generate_new_chunk`: from the predecessor chunk (if any)
and the stream tables, compute the next chunk descriptor, or `none` for
the NULL result.  (The `chunk_new` allocation-failure path is not
modelled; allocation always succeeds in the model.) -/
def generate_new_chunk (live : Bool) (durationSeconds : Nat)
    (tbl : HdsTables) (last : Option Chunk) : Option Chunk :=
  let c0 : Chunk := {}
  let startAndChunk : Chunk × Nat :=
    match last with
    | some l =>
      ({ c0 with timestamp := (l.timestamp + l.duration) % 2 ^ 64,
                 frag_num := (l.frag_num + 1) % 2 ^ 32 },
        if live then 0 else l.frun_entry)
    | none =>
      if live then
        ({ c0 with timestamp :=
            tbl.live_current_time * tbl.afrt_timescale % 2 ^ 64 / tbl.timescale }, 0)
      else
        let f0 := tbl.fragment_runs.getD 0 {}
        ({ c0 with timestamp := f0.fragment_timestamp,
                   frag_num := f0.fragment_number_start }, 0)
  let c1 := startAndChunk.1
  let startFrun := startAndChunk.2
  match genFragWalk tbl.fragment_runs tbl.fragment_run_count
      (tbl.fragment_run_count - startFrun) startFrun c1 with
  | none => none
  | some (c2, frun) =>
    let seg := segWalk tbl.segment_runs tbl.segment_run_count
      tbl.segment_run_count 0 c2.frag_num c2.frag_num
    let c3 := { c2 with seg_num := seg, frun_entry := frun }
    some (if ¬ live ∧
        (c3.timestamp + c3.duration) / tbl.afrt_timescale ≥ durationSeconds then
      { c3 with eof := true } else c3)

/-! ## Claim C2: VOD scenario 1 -/

/-- Stream tables of end-to-end scenario 1: abst timescale 1000, one
segment run (first_segment 1, fragments_per_segment 4), afrt timescale
1000, one fragment run (start 1, ts 0, dur 2500); total duration 10 s. -/
def vodScenario1Tables : HdsTables :=
  { afrt_timescale := 1000, timescale := 1000,
    segment_runs := [{ first_segment := 1, fragments_per_segment := 4 }],
    segment_run_count := 1,
    fragment_runs := [{ fragment_number_start := 1, fragment_duration := 2500,
                        fragment_timestamp := 0 }],
    fragment_run_count := 1 }

/-- Claim C2: on the scenario-1 VOD tables, the indexer with no
predecessor yields frag_num 1, seg_num 1, timestamp 0, duration 2500,
eof false; three further applications, each on the previous chunk, yield
a fourth chunk with frag_num 4, seg_num 1, timestamp 7500 and eof true. -/
theorem generate_chunk_vod_scenario1 :
    ((generate_new_chunk false 10 vodScenario1Tables none).map
        (fun c => (c.frag_num, c.seg_num, c.timestamp, c.duration, c.eof))
      = some (1, 1, 0, 2500, false)) ∧
    (((generate_new_chunk false 10 vodScenario1Tables none).bind (fun c1 =>
        (generate_new_chunk false 10 vodScenario1Tables (some c1)).bind (fun c2 =>
          (generate_new_chunk false 10 vodScenario1Tables (some c2)).bind (fun c3 =>
            generate_new_chunk false 10 vodScenario1Tables (some c3))))).map
        (fun c => (c.frag_num, c.seg_num, c.timestamp, c.eof))
      = some (4, 1, 7500, true)) := by decide

/-! ## Claim C3: discontinuity handling -/

/-- Fragment-run table with a zero-duration discontinuity marker between
the run starting at fragment 1 and the run starting at fragment 10. -/
def discontTables : HdsTables :=
  { afrt_timescale := 1000, timescale := 1000,
    segment_runs := [{ first_segment := 1, fragments_per_segment := 4 }],
    segment_run_count := 1,
    fragment_runs :=
      [{ fragment_number_start := 1, fragment_duration := 2000, fragment_timestamp := 0 },
       { fragment_number_start := 0, fragment_duration := 0, fragment_timestamp := 0,
         discont := 1 },
       { fragment_number_start := 10, fragment_duration := 2000,
         fragment_timestamp := 50000 }],
    fragment_run_count := 3 }

/-- The same table truncated so that the zero-duration marker is the last
entry of the fragment-run table. -/
def discontTablesMarkerLast : HdsTables :=
  { discontTables with
    fragment_runs :=
      [{ fragment_number_start := 1, fragment_duration := 2000, fragment_timestamp := 0 },
       { fragment_number_start := 0, fragment_duration := 0, fragment_timestamp := 0,
         discont := 1 }],
    fragment_run_count := 2 }

/-- The chunk produced for fragment 1 of the discontinuity scenario,
used as the predecessor handed back to the indexer. -/
def discontLastChunk : Chunk :=
  { frag_num := 1, timestamp := 0, duration := 2000, frun_entry := 0 }

/-- Claim C3: given the last chunk (frag_num 1, ts 0, dur 2000), the
indexer skips the zero-duration marker and yields (frag_num 10,
timestamp 50000, duration 2000); and when the zero-duration marker is
the last entry of the table, the indexer produces no chunk. -/
theorem generate_chunk_discontinuity :
    ((generate_new_chunk false 1000 discontTables (some discontLastChunk)).map
        (fun c => (c.frag_num, c.timestamp, c.duration))
      = some (10, 50000, 2000)) ∧
    generate_new_chunk false 1000 discontTablesMarkerLast (some discontLastChunk)
      = none := by decide

/-! ## The mdat locator (find_chunk_mdat) -/

/-- The four bytes of the ASCII tag "mdat". -/
def mdatTag : List Nat := [109, 100, 97, 116]

/-- Model of `find_chunk_mdat`: walk ISO-BMFF boxes from offset `p`,
returning the mdat payload offset and the returned length
`chunkdata_end - boxdata`, or `none` for the failure path (which sets
`*mdatptr = 0` and returns 0).  A box size below the header size makes
the C cursor move backwards (`chunkdata += boxsize - 8` with unsigned
wrap cancelling against the `+ 8` already applied), so the walk can
revisit the same offsets forever; the fuel argument makes the model
total, and exhausted fuel models that non-termination. -/
def find_chunk_mdat : Nat → List Nat → Nat → Option (Nat × Nat)
  | 0, _, _ => none
  | fuel + 1, d, p =>
    let n := d.length
    if n < p ∨ n - p < 8 then none
    else
      let boxsize := readU32 d p
      let afterName := p + 8
      if boxsize = 1 then
        if n - afterName ≥ 12 then
          let boxsize := readU64 d afterName
          let boxdata := afterName + 8
          if readTag d (p + 4) = mdatTag then some (boxdata, n - boxdata)
          else find_chunk_mdat fuel d (afterName + 8 + boxsize - 16)
        else none
      else
        if readTag d (p + 4) = mdatTag then some (afterName, n - afterName)
        else find_chunk_mdat fuel d (afterName + boxsize - 8)

/-! ## Claim C9: undersized boxes in the mdat locator -/

/-- Counterexample to claim C9: a box whose 32-bit size field is 0 (less
than 8) with tag "mdat" is not a parse failure — the locator accepts it
and returns payload offset 8 with length 0 instead of reporting failure. -/
theorem find_chunk_mdat_small_box_accepted :
    find_chunk_mdat 5 [0, 0, 0, 0, 109, 100, 97, 116] 0 = some (8, 0) ∧
    find_chunk_mdat 5 [0, 0, 0, 0, 109, 100, 97, 116] 0 ≠ none := by decide

/-- Amended claim C9: the locator never validates the size field against
the 8-byte minimum.  Any box whose 32-bit size field is below 8 (other
than the value 1, which selects the 64-bit form) and whose tag is "mdat"
is accepted: the locator returns payload offset 8 and the remainder of
the buffer as the length.  The only failure the locator reports is
having fewer than 8 bytes left before a box header (or fewer than 12
after a 64-bit size marker). -/
theorem find_chunk_mdat_small_mdat_box (b0 b1 b2 b3 : Nat) (rest : List Nat)
    (fuel : Nat)
    (_hlt : b0 * 2 ^ 24 + b1 * 2 ^ 16 + b2 * 2 ^ 8 + b3 < 8)
    (hne : b0 * 2 ^ 24 + b1 * 2 ^ 16 + b2 * 2 ^ 8 + b3 ≠ 1) :
    find_chunk_mdat (fuel + 1)
        (b0 :: b1 :: b2 :: b3 :: 109 :: 100 :: 97 :: 116 :: rest) 0 =
      some (8, rest.length) := by
  have hsz : readU32 (b0 :: b1 :: b2 :: b3 :: 109 :: 100 :: 97 :: 116 :: rest) 0 =
      b0 * 2 ^ 24 + b1 * 2 ^ 16 + b2 * 2 ^ 8 + b3 := by
    simp [readU32, readU8]
  have htag : readTag (b0 :: b1 :: b2 :: b3 :: 109 :: 100 :: 97 :: 116 :: rest) 4 =
      mdatTag := by
    simp [readTag, readU8, mdatTag]
  simp only [find_chunk_mdat, hsz, htag, List.length_cons]
  simp [hne]
  omega

/-- Witness for the amended claim C9, at size field 0 and a two-byte
trailing payload. -/
theorem find_chunk_mdat_small_mdat_box_witness :
    find_chunk_mdat 3 [0, 0, 0, 0, 109, 100, 97, 116, 7, 9] 0 = some (8, 2) :=
  find_chunk_mdat_small_mdat_box 0 0 0 0 [7, 9] 2 (by decide) (by decide)

/-! ## The fragment fetch (download_chunk) and the downloader step -/

/-- Outcome of one fetch attempt handed to the generic HTTP fetcher:
whether stream_UrlNew succeeded, the size it reports, and the bytes the
subsequent stream_Read actually delivers. -/
structure FetchResult where
  urlOk : Bool := true
  size : Nat := 0
  received : List Nat := []
deriving Repr, DecidableEq

/-- Model of `download_chunk`: returns the updated chunk and the data
pointer result (none models returning NULL).  Note the two failure paths
that return NULL without touching `chunk->failed`: the oversize check
and the allocation failure (the latter is not modelled — allocation
always succeeds here). -/
def download_chunk (f : FetchResult) (c : Chunk) : Chunk × Option (List Nat) :=
  if ¬ f.urlOk then ({ c with failed := true }, none)
  else
    let c := { c with data_len := f.size % 2 ^ 32 }
    if f.size > 50 * 1024 * 1024 then (c, none)
    else
      let c := { c with data_len := f.received.length % 2 ^ 32 }
      if f.received.length < f.size then ({ c with failed := true }, none)
      else ({ c with failed := false }, some f.received)

/-- What the downloader loop body does with one chunk after
`download_chunk` returns. -/
inductive DlOutcome where
  /-- Data published: `chunk->data` assigned, mdat located, cursor advances. -/
  | published (c : Chunk)
  /-- mdat locator failed: `mdat_data` is NULL and `mdat_len` is recomputed
  from the NULL pointer (garbage), yet the chunk is still published. -/
  | mdatGarbage (c : Chunk)
  /-- Chunk marked failed: `chunks_downloadpos` stays on it, so it is
  fetched again on the next loop iteration. -/
  | stalled (c : Chunk)
  /-- The chunk is not marked failed yet no data was returned: the loop
  body calls `find_chunk_mdat` on a NULL data pointer. -/
  | nullDeref (c : Chunk)
deriving Repr, DecidableEq

/-- Model of one iteration of the inner loop of `download_thread` for the
chunk at `chunks_downloadpos`. -/
def downloadStep (fuel : Nat) (f : FetchResult) (c : Chunk) : DlOutcome :=
  let r := download_chunk f c
  let c1 := r.1
  if c1.failed then .stalled c1
  else
    match r.2 with
    | none => .nullDeref c1
    | some data =>
      match find_chunk_mdat fuel data 0 with
      | some q =>
        let mlen := if q.2 = 0 then c1.data_len - q.1 else q.2
        .published { c1 with data := some data, mdat_data := data.drop q.1,
                             mdat_len := mlen }
      | none => .mdatGarbage { c1 with data := some data }

/-! ## Claim C6: oversize fragments -/

/-- A fetch whose reported size exceeds the 50 MiB sanity bound. -/
def oversizeFetch : FetchResult :=
  { urlOk := true, size := 50 * 1024 * 1024 + 1, received := [] }

/-- Claim C6 evaluated at the failing input (the claim is right, the code
is not): on a fetch reporting more than 50 MiB, `download_chunk` returns
NULL but leaves the chunk's `failed` flag false, so the downloader loop
takes its not-failed branch and hands the NULL data pointer to
`find_chunk_mdat` instead of treating the chunk as failed. -/
theorem download_oversize_not_marked_failed :
    (download_chunk oversizeFetch {}).1.failed = false ∧
    (download_chunk oversizeFetch {}).2 = none ∧
    downloadStep 5 oversizeFetch {} =
      DlOutcome.nullDeref (download_chunk oversizeFetch {}).1 := by decide

/-! ## The reader (read_chunk_data / Read) -/

/-- Model of the main while-loop of `read_chunk_data`.  The cursor `idx`
is the position of the C `chunk` pointer in the chain; in VOD mode the
loop only ever advances by freeing the head, so `idx` stays 0 there,
while live mode advances the cursor without freeing.  `eofF` and `dl`
are the C locals `*eof` and `dl`.  Fuel only runs out in states the C
code would busy-loop on. -/
def rcdMain (live : Bool) (durS : Nat) (tbl : HdsTables) :
    Nat → Nat → List Chunk → Nat → Bool → Bool →
      List Nat × List Chunk × Bool × Bool
  | 0, _, chain, _, eofF, dl => ([], chain, eofF, dl)
  | fuel + 1, readLen, chain, idx, eofF, dl =>
    match chain.get? idx with
    | none => ([], chain, eofF, dl)
    | some c =>
      if c.data = none ∨ readLen = 0 ∨ (c.eof ∧ c.mdat_len ≤ c.mdat_pos) then
        ([], chain, eofF, dl)
      else
        let cp := if c.mdat_pos < c.mdat_len then
            min (c.mdat_len - c.mdat_pos) readLen else 0
        let bytes := (c.mdat_data.drop c.mdat_pos).take cp
        let c1 := { c with mdat_pos := c.mdat_pos + cp }
        let chain1 := chain.set idx c1
        let readLen1 := readLen - cp
        if ¬ live ∧ (c1.mdat_len ≤ c1.mdat_pos ∨ c1.failed) then
          let eofF1 := eofF ∨ c1.eof
          let app := if ¬ (idx + 1 < chain1.length) ∧ ¬ c1.eof then
              ((generate_new_chunk live durS tbl (some c1)).toList, true)
            else ([], dl)
          let chain2 := chain1 ++ app.1
          if ¬ c1.eof then
            let rest := rcdMain live durS tbl fuel readLen1 (chain2.drop 1) idx eofF1 app.2
            (bytes ++ rest.1, rest.2)
          else
            let rest := rcdMain live durS tbl fuel readLen1 chain2 idx eofF1 app.2
            (bytes ++ rest.1, rest.2)
        else if live ∧ (c1.mdat_len ≤ c1.mdat_pos ∨ c1.failed) then
          let rest := rcdMain live durS tbl fuel readLen1 chain1 (idx + 1) eofF dl
          (bytes ++ rest.1, rest.2)
        else
          let rest := rcdMain live durS tbl fuel readLen1 chain1 idx eofF dl
          (bytes ++ rest.1, rest.2)

/-- Model of the VOD lead-time loop at the end of `read_chunk_data`:
walk from the head appending chunks until `download_leadtime` seconds
are buffered or an eof chunk is reached. -/
def rcdLead (durS : Nat) (tbl : HdsTables) :
    Nat → List Chunk → Nat → Nat → Bool → List Chunk × Bool
  | 0, chain, _, _, dl => (chain, dl)
  | fuel + 1, chain, idx, total, dl =>
    match chain.get? idx with
    | none => (chain, dl)
    | some c =>
      if total / tbl.afrt_timescale < tbl.download_leadtime ∧ ¬ c.eof then
        let app := if ¬ (idx + 1 < chain.length) ∧ ¬ c.eof then
            ((generate_new_chunk false durS tbl (some c)).toList, true)
          else ([], dl)
        let chain1 := chain ++ app.1
        match chain1.get? (idx + 1) with
        | some c2 => rcdLead durS tbl fuel chain1 (idx + 1) (total + c2.duration) app.2
        | none => rcdLead durS tbl fuel chain1 (idx + 1) total app.2
      else (chain, dl)

/-- Model of `read_chunk_data`: returns the bytes copied to the caller
buffer, the updated chain, the `*eof` flag and the `dl` flag (whether
the downloader condition variable is signalled). -/
def read_chunk_data (fuel : Nat) (live : Bool) (durS : Nat) (tbl : HdsTables)
    (readLen : Nat) (chain : List Chunk) :
    List Nat × List Chunk × Bool × Bool :=
  match chain.head? with
  | some c0 =>
    if c0.eof ∧ c0.mdat_len ≤ c0.mdat_pos then ([], chain, true, false)
    else
      let r := rcdMain live durS tbl fuel readLen chain 0 false false
      let l := if live then (r.2.1, r.2.2.2)
        else
          match r.2.1.head? with
          | some h => rcdLead durS tbl fuel r.2.1 0 h.duration r.2.2.2
          | none => (r.2.1, r.2.2.2)
      (r.1, l.1, r.2.2.1, l.2)
  | none => ([], chain, false, false)

/-- Model of the while-loop of `Read`: keep calling `read_chunk_data`
until the request is filled or eof is flagged.  The C loop does not
terminate on its own when no data is available (it busy-waits on the
downloader thread); the fuel bounds how many iterations are observed. -/
def readLoop (live : Bool) (durS : Nat) (tbl : HdsTables) :
    Nat → Nat → List Chunk → Bool → List Nat × List Chunk × Bool
  | 0, _, chain, eofF => ([], chain, eofF)
  | fuel + 1, iRead, chain, eofF =>
    if iRead > 0 ∧ ¬ eofF then
      let r := read_chunk_data (fuel + 1) live durS tbl iRead chain
      let rest := readLoop live durS tbl fuel (iRead - r.1.length) r.2.1 r.2.2.1
      (r.1 ++ rest.1, rest.2)
    else ([], chain, eofF)

/-- Model of `Read`: serve FLV header bytes first, then drain mdat
payloads through `read_chunk_data`. -/
def ReadOp (fuel : Nat) (st : SysState) (iRead : Nat) : List Nat × SysState :=
  let h := send_flv_header st.flv_header_bytes_sent iRead false
  let r := readLoop st.live st.duration_seconds st.tables fuel
    (iRead - h.1.length) st.chain false
  (h.1 ++ r.1,
    { st with flv_header_bytes_sent := h.2, chain := r.2.1 })

/-- A sequence of Read calls with the given request sizes, concatenating
everything delivered. -/
def runReads (fuel : Nat) : List Nat → SysState → List Nat × SysState
  | [], st => ([], st)
  | n :: rest, st =>
    let r := ReadOp fuel st n
    let rr := runReads fuel rest r.2
    (r.1 ++ rr.1, rr.2)

/-! ## Claim C4: short fetches and the reader -/

/-- Helper: the main reader loop emits nothing when the chunk under the
cursor has no data. -/
theorem rcdMain_no_data (live : Bool) (durS : Nat) (tbl : HdsTables)
    (fuel readLen idx : Nat) (chain : List Chunk) (eofF dl : Bool)
    (c : Chunk) (hc : chain[idx]? = some c) (hd : c.data = none) :
    (rcdMain live durS tbl fuel readLen chain idx eofF dl).1 = [] := by
  cases fuel with
  | zero => rfl
  | succ fuel =>
    unfold rcdMain
    rw [show chain.get? idx = some c from by
      simpa [List.get?_eq_getElem?] using hc]
    simp [hd]

/-- Helper: `read_chunk_data` emits nothing when the head chunk has no
data (whatever the rest of the chain holds). -/
theorem read_chunk_data_no_data (fuel : Nat) (live : Bool) (durS : Nat)
    (tbl : HdsTables) (readLen : Nat) (chain : List Chunk) (c : Chunk)
    (hc : chain.head? = some c) (hd : c.data = none) :
    (read_chunk_data fuel live durS tbl readLen chain).1 = [] := by
  unfold read_chunk_data
  rw [hc]
  by_cases he : c.eof ∧ c.mdat_len ≤ c.mdat_pos
  · simp [he]
  · have hm := rcdMain_no_data live durS tbl fuel readLen 0 chain false false c
      (by simpa [List.head?_eq_getElem?] using hc) hd
    simp only [he, if_false]
    simpa using hm

/-- Amended claim C4: when the HTTP fetch of a chunk returns fewer bytes
than the reported size, the chunk's failed flag is set and its data stays
null; but a subsequent Read does not skip the failed chunk — because the
reader loop requires the head chunk's data pointer to be non-null, it
stops there and delivers no byte from any following chunk (the stream
stalls at the failed chunk until the downloader's retry of that same
chunk succeeds). -/
theorem download_short_reader_stalls (f : FetchResult) (c : Chunk)
    (hok : f.urlOk = true) (hsz : f.size ≤ 50 * 1024 * 1024)
    (hshort : f.received.length < f.size) :
    (download_chunk f c).1.failed = true ∧
    (download_chunk f c).2 = none ∧
    (∀ (fuel : Nat) (live : Bool) (durS : Nat) (tbl : HdsTables)
        (readLen : Nat) (chain : List Chunk) (c0 : Chunk),
      chain.head? = some c0 → c0.data = none →
      (read_chunk_data fuel live durS tbl readLen chain).1 = []) := by
  refine ⟨?_, ?_, ?_⟩
  · simp [download_chunk, hok, Nat.not_lt.mpr hsz, hshort, Nat.not_le.mpr hshort]
  · simp [download_chunk, hok, Nat.not_lt.mpr hsz, hshort, Nat.not_le.mpr hshort]
  · intro fuel live durS tbl readLen chain c0 hc hd
    exact read_chunk_data_no_data fuel live durS tbl readLen chain c0 hc hd

/-- The failed head chunk (fetch-short: failed set, data still null). -/
def failedHeadChunk : Chunk := { failed := true, duration := 20 }

/-- A fully downloaded successor chunk holding three payload bytes. -/
def downloadedNextChunk : Chunk :=
  { data := some [1, 2, 3], mdat_data := [1, 2, 3], mdat_len := 3, duration := 20 }

/-- Tables used by the reader scenarios. -/
def readerTables : HdsTables :=
  { afrt_timescale := 1, download_leadtime := 15 }

/-- Counterexample to claim C4 as stated: with the failed (data-less)
chunk at the head and a downloaded chunk with payload `[1, 2, 3]` right
behind it, `read_chunk_data` delivers no bytes at all and leaves the
chain unchanged — the reader neither skips the failed chunk nor
continues with the following chunk. -/
theorem read_does_not_skip_failed_chunk :
    (read_chunk_data 6 false 100 readerTables 10
        [failedHeadChunk, downloadedNextChunk]).1 = [] ∧
    (read_chunk_data 6 false 100 readerTables 10
        [failedHeadChunk, downloadedNextChunk]).2.1 =
      [failedHeadChunk, downloadedNextChunk] := ⟨rfl, rfl⟩

/-- Witness for the amended claim C4: a concrete short fetch (8 bytes
reported, 4 received) on a fresh chunk, and the concrete stalled read. -/
theorem download_short_reader_stalls_witness :
    (download_chunk { urlOk := true, size := 8,
                      received := [0, 0, 0, 0] } {}).1.failed = true ∧
    (download_chunk { urlOk := true, size := 8,
                      received := [0, 0, 0, 0] } {}).2 = none ∧
    (read_chunk_data 4 false 100 readerTables 10
        [failedHeadChunk, downloadedNextChunk]).1 = [] := by
  have h := download_short_reader_stalls
    { urlOk := true, size := 8, received := [0, 0, 0, 0] } {}
    rfl (by decide) (by decide)
  exact ⟨h.1, h.2.1,
    h.2.2 4 false 100 readerTables 10 [failedHeadChunk, downloadedNextChunk]
      failedHeadChunk rfl rfl⟩

/-! ## Claim C1: the FLV header prefix -/

/-- Helper: the Read while-loop delivers nothing once the request is
exhausted. -/
theorem readLoop_zero (live : Bool) (durS : Nat) (tbl : HdsTables)
    (fuel : Nat) (chain : List Chunk) (eofF : Bool) :
    (readLoop live durS tbl fuel 0 chain eofF).1 = [] := by
  cases fuel with
  | zero => rfl
  | succ fuel => simp [readLoop]

/-- Helper: one Read call delivers the next slice of the FLV header
followed by chunk-loop output, and the chunk loop contributes only
after the full 13 header bytes are out. -/
theorem ReadOp_spec (fuel n : Nat) (st : SysState)
    (h : st.flv_header_bytes_sent ≤ 13) :
    st.flv_header_bytes_sent ≤ (ReadOp fuel st n).2.flv_header_bytes_sent ∧
    (ReadOp fuel st n).2.flv_header_bytes_sent ≤ 13 ∧
    ∃ body,
      (ReadOp fuel st n).1 =
        (flvHeaderBytes.drop st.flv_header_bytes_sent).take
          ((ReadOp fuel st n).2.flv_header_bytes_sent -
            st.flv_header_bytes_sent) ++ body ∧
      (body ≠ [] → (ReadOp fuel st n).2.flv_header_bytes_sent = 13) := by
  have hlen : flvHeaderBytes.length = 13 := by decide
  unfold ReadOp send_flv_header
  by_cases hc : n > 13 - st.flv_header_bytes_sent
  · simp only [hc, if_true, if_false, Bool.false_eq_true]
    have harith : st.flv_header_bytes_sent + (13 - st.flv_header_bytes_sent) -
        st.flv_header_bytes_sent = 13 - st.flv_header_bytes_sent := by omega
    refine ⟨by omega, by omega, ?_⟩
    rw [harith]
    exact ⟨_, rfl, fun _ => by omega⟩
  · simp only [hc, if_false, Bool.false_eq_true]
    have hdrop : ((flvHeaderBytes.drop st.flv_header_bytes_sent).take n).length = n := by
      rw [List.length_take, List.length_drop, hlen]
      omega
    refine ⟨by omega, by omega, ?_⟩
    refine ⟨[], ?_, fun hne => absurd rfl hne⟩
    rw [hdrop]
    simp only [Nat.sub_self, readLoop_zero, List.append_nil]
    congr 1
    omega

/-- Helper: sequences of Reads keep the invariant that everything
delivered so far is a prefix slice of the FLV header followed by chunk
bytes, the latter only once all 13 header bytes are out. -/
theorem runReads_spec (fuel : Nat) (calls : List Nat) (st : SysState)
    (h : st.flv_header_bytes_sent ≤ 13) :
    st.flv_header_bytes_sent ≤ (runReads fuel calls st).2.flv_header_bytes_sent ∧
    (runReads fuel calls st).2.flv_header_bytes_sent ≤ 13 ∧
    ∃ rest,
      (runReads fuel calls st).1 =
        (flvHeaderBytes.drop st.flv_header_bytes_sent).take
          ((runReads fuel calls st).2.flv_header_bytes_sent -
            st.flv_header_bytes_sent) ++ rest ∧
      (rest ≠ [] → (runReads fuel calls st).2.flv_header_bytes_sent = 13) := by
  induction calls generalizing st with
  | nil =>
    refine ⟨Nat.le_refl _, h, [], ?_, fun hne => absurd rfl hne⟩
    simp [runReads]
  | cons n rest ih =>
    obtain ⟨h1, h2, body, hout, hbody⟩ := ReadOp_spec fuel n st h
    obtain ⟨g1, g2, tailRest, gout, gtail⟩ := ih ((ReadOp fuel st n).2) h2
    have hsq : (runReads fuel (n :: rest) st).1 =
        (ReadOp fuel st n).1 ++ (runReads fuel rest (ReadOp fuel st n).2).1 := rfl
    have hst : (runReads fuel (n :: rest) st).2 =
        (runReads fuel rest (ReadOp fuel st n).2).2 := rfl
    refine ⟨by rw [hst]; omega, by rw [hst]; omega, ?_⟩
    rw [hsq, hst, hout, gout]
    set s0 := st.flv_header_bytes_sent with hs0
    set s1 := (ReadOp fuel st n).2.flv_header_bytes_sent with hs1
    set s2 := (runReads fuel rest (ReadOp fuel st n).2).2.flv_header_bytes_sent with hs2
    by_cases hb : body = []
    · subst hb
      refine ⟨tailRest, ?_, fun hne => gtail hne⟩
      have hsplit : (flvHeaderBytes.drop s0).take (s2 - s0) =
          (flvHeaderBytes.drop s0).take (s1 - s0) ++
            (flvHeaderBytes.drop s1).take (s2 - s1) := by
        have he : s2 - s0 = (s1 - s0) + (s2 - s1) := by omega
        rw [he, List.take_add, List.drop_drop]
        have he2 : s0 + (s1 - s0) = s1 := by omega
        rw [he2]
      rw [hsplit]
      simp [List.append_assoc]
    · have h13 : s1 = 13 := hbody hb
      have h13b : s2 = 13 := by omega
      have hmid : (flvHeaderBytes.drop s1).take (s2 - s1) = [] := by
        rw [h13, h13b]
        simp
      refine ⟨body ++ tailRest, ?_, fun _ => h13b⟩
      rw [hmid]
      simp only [List.nil_append, List.append_assoc]
      congr 2
      omega

/-- Claim C1: across every sequence of Read calls on a freshly opened
stream (no header bytes sent yet), whatever fuel and whatever the chunk
chain and tables, the delivered byte stream is a prefix of the 13-byte
FLV header followed by chunk payload bytes that appear only after the
full header is out; in particular the first 13 bytes delivered are
exactly 46 4C 56 01 05 00 00 00 09 00 00 00 00. -/
theorem read_flv_header_first (fuel : Nat) (calls : List Nat) (st : SysState)
    (h : st.flv_header_bytes_sent = 0) :
    (∃ rest,
      (runReads fuel calls st).1 =
        flvHeaderBytes.take
          ((runReads fuel calls st).2.flv_header_bytes_sent) ++ rest ∧
      (runReads fuel calls st).2.flv_header_bytes_sent ≤ 13 ∧
      (rest ≠ [] →
        (runReads fuel calls st).2.flv_header_bytes_sent = 13)) ∧
    (runReads fuel calls st).1.take 13 =
      flvHeaderBytes.take (min 13 (runReads fuel calls st).1.length) := by
  obtain ⟨h1, h2, rest, hout, hrest⟩ :=
    runReads_spec fuel calls st (by omega)
  rw [h] at hout
  simp only [Nat.sub_zero, List.drop_zero] at hout
  constructor
  · exact ⟨rest, hout, h2, hrest⟩
  · have hlen : flvHeaderBytes.length = 13 := by decide
    set s := (runReads fuel calls st).2.flv_header_bytes_sent with hs
    by_cases hr : rest = []
    · subst hr
      rw [hout]
      simp only [List.append_nil]
      rw [List.take_take, List.length_take, hlen]
      congr 1
      omega
    · have h13 : s = 13 := hrest hr
      rw [hout, h13]
      have hfull : flvHeaderBytes.take 13 = flvHeaderBytes := by decide
      rw [hfull]
      rw [List.take_append_of_le_length hlen.ge]
      rw [List.length_append, hlen]
      have hmin : min 13 (13 + rest.length) = 13 := by omega
      rw [hmin, hfull]

/-- Witness for claim C1: two concrete Reads of 5 and 20 bytes on an
empty chain deliver exactly the 13 header bytes. -/
theorem read_flv_header_first_witness :
    ((runReads 3 [5, 20] { }).1).take 13 =
      flvHeaderBytes.take (min 13 ((runReads 3 [5, 20] { }).1).length) :=
  (read_flv_header_first 3 [5, 20] { } rfl).2

/-! ## Bootstrap parsers (parse_asrt / parse_afrt / parse_BootstrapData)

Every read the parsers perform on the blob is recorded in a `PAcc`
accumulator: `okAll` stays true only if every read stayed inside
`[data, data_end)`; `okChecked` ignores the read sites that the C code
performs without a preceding bounds check (the leading 4-byte box-length
reads of abst/asrt/afrt, the movie-identifier read, the afrt
discontinuity-flag byte and the afrt-count byte after the asrt blocks).
Out-of-range bytes read 0 in the model (the C behaviour there is
undefined). -/

/-- In-bounds bookkeeping for parser reads. -/
structure PAcc where
  okAll : Bool := true
  okChecked : Bool := true
deriving Repr, DecidableEq

/-- Record a read at a site whose bounds the C code checked beforehand. -/
def PAcc.note (a : PAcc) (inB : Bool) : PAcc :=
  { okAll := a.okAll && inB, okChecked := a.okChecked && inB }

/-- Record a read at one of the unchecked C sites. -/
def PAcc.noteExempt (a : PAcc) (inB : Bool) : PAcc :=
  { a with okAll := a.okAll && inB }

/-- Write `x` at index `i` of a zero-initialised C array modelled as a
list: in-range writes set, writes past the current suffix pad with the
zero entry. -/
def padSet {α : Type} (l : List α) (i : Nat) (x dflt : α) : List α :=
  if i < l.length then l.set i x
  else l ++ List.replicate (i - l.length) dflt ++ [x]

/-- Tag bytes of "abst". -/
def abstTag : List Nat := [97, 98, 115, 116]

/-- Tag bytes of "asrt". -/
def asrtTag : List Nat := [97, 115, 114, 116]

/-- Tag bytes of "afrt". -/
def afrtTag : List Nat := [97, 102, 114, 116]

/-- Does the string at `pos` (NUL-terminated at `q`) start with the
modifier bytes `m`?  Models `strncmp(str_start, modifier,
strlen(modifier)) == 0` for a NUL-free modifier. -/
def modifierMatch (d : List Nat) (pos q : Nat) (m : List Nat) : Bool :=
  decide (((d.drop pos).take (q - pos)).take m.length = m)

/-- Quality-entry loop of `parse_asrt`: skip NUL-terminated labels,
matching the stream's quality modifier by prefix, failing on a missing
NUL or when the cursor reaches the end.  Returns the cursor and the
`quality_found` flag.  The strncmp reads are inside the interval the
memchr scan already recorded. -/
def asrtQualityLoop (d : List Nat) (modifier : Option (List Nat)) :
    Nat → Nat → Bool → PAcc → Option (Nat × Bool) × PAcc
  | 0, pos, found, acc => (some (pos, found), acc)
  | count + 1, pos, found, acc =>
    let n := d.length
    match memchrZ d pos (n - pos) with
    | none => (none, acc.note (decide (pos + (n - pos) ≤ n)))
    | some q =>
      let acc := acc.note (decide (q + 1 ≤ n))
      let found1 := found || (match modifier with
        | some m => modifierMatch d pos q m
        | none => false)
      if q + 1 ≥ n then (none, acc)
      else asrtQualityLoop d modifier count (q + 1) found1 acc

/-- Quality-entry loop of `parse_afrt`: as in `parse_asrt` but without
the end-of-data check after each entry. -/
def afrtQualityLoop (d : List Nat) (modifier : Option (List Nat)) :
    Nat → Nat → Bool → PAcc → Option (Nat × Bool) × PAcc
  | 0, pos, found, acc => (some (pos, found), acc)
  | count + 1, pos, found, acc =>
    let n := d.length
    match memchrZ d pos (n - pos) with
    | none => (none, acc.note (decide (pos + (n - pos) ≤ n)))
    | some q =>
      let acc := acc.note (decide (q + 1 ≤ n))
      let found1 := found || (match modifier with
        | some m => modifierMatch d pos q m
        | none => false)
      afrtQualityLoop d modifier count (q + 1) found1 acc

/-- Segment-run entry loop of `parse_asrt`: 8 bytes per entry, stored
only when the quality matched, while the uint8 `segment_run_count`
always advances (wrapping at 256). -/
def asrtEntriesLoop (d : List Nat) (qualityFound : Bool) :
    Nat → Nat → HdsTables → PAcc → Nat × HdsTables × PAcc
  | 0, pos, s, acc => (pos, s, acc)
  | count + 1, pos, s, acc =>
    let n := d.length
    let acc := acc.note (decide (pos + 8 ≤ n))
    let s := if qualityFound then
        { s with segment_runs := (padSet s.segment_runs s.segment_run_count
            { first_segment := readU32 d pos,
              fragments_per_segment := readU32 d (pos + 4) } {}) }
      else s
    let s := { s with segment_run_count := (s.segment_run_count + 1) % 256 }
    asrtEntriesLoop d qualityFound count (pos + 8) s acc

/-- Model of `parse_asrt`.  `none` is the NULL return. -/
def parse_asrt (d : List Nat) (s : HdsTables) (acc : PAcc) (pos : Nat) :
    Option Nat × HdsTables × PAcc :=
  let n := d.length
  let acc := acc.noteExempt (decide (pos + 4 ≤ n))
  let asrtLen := readU32 d pos
  if asrtLen > n - pos ∨ n - pos < 14 then (none, s, acc)
  else
    let acc := acc.note (decide (pos + 8 ≤ n))
    if readTag d (pos + 4) ≠ asrtTag then (none, s, acc)
    else
      let acc := acc.note (decide (pos + 13 ≤ n))
      let qcount := readU8 d (pos + 12)
      let found0 := s.quality_segment_modifier.isNone
      match asrtQualityLoop d s.quality_segment_modifier qcount (pos + 13) found0 acc with
      | (none, acc) => (none, s, acc)
      | (some qres, acc) =>
        let p1 := qres.1
        if n - p1 < 4 then (none, s, acc)
        else
          let acc := acc.note (decide (p1 + 4 ≤ n))
          let entryCount := readU32 d p1
          let p2 := p1 + 4
          if n - p2 < 8 * entryCount % 2 ^ 32 then (none, s, acc)
          else if entryCount ≥ 256 then (none, s, acc)
          else
            let r := asrtEntriesLoop d qres.2 entryCount p2 s acc
            (some r.1, r.2.1, r.2.2)

/-- Fragment-run entry loop of `parse_afrt`: 16 bytes per entry plus an
unchecked discontinuity-flag byte when the duration is zero; stops with
NULL when fewer than 16 bytes remain or the table holds 10000 runs. -/
def afrtEntriesLoop (d : List Nat) :
    Nat → Nat → HdsTables → PAcc → Option Nat × HdsTables × PAcc
  | 0, pos, s, acc => (some pos, s, acc)
  | count + 1, pos, s, acc =>
    let n := d.length
    if n - pos < 16 then (none, s, acc)
    else if s.fragment_run_count ≥ 10000 then (none, s, acc)
    else
      let acc := acc.note (decide (pos + 16 ≤ n))
      let entry : FragmentRun :=
        { fragment_number_start := readU32 d pos,
          fragment_timestamp := readU64 d (pos + 4),
          fragment_duration := readU32 d (pos + 12),
          discont := 0 }
      if entry.fragment_duration = 0 then
        let acc := acc.noteExempt (decide (pos + 17 ≤ n))
        let entry := { entry with discont := readU8 d (pos + 16) }
        let s := { s with
          fragment_runs := (padSet s.fragment_runs s.fragment_run_count entry {}),
          fragment_run_count := s.fragment_run_count + 1 }
        afrtEntriesLoop d count (pos + 17) s acc
      else
        let s := { s with
          fragment_runs := (padSet s.fragment_runs s.fragment_run_count entry {}),
          fragment_run_count := s.fragment_run_count + 1 }
        afrtEntriesLoop d count (pos + 16) s acc

/-- Model of `parse_afrt`.  `none` is the NULL return. -/
def parse_afrt (d : List Nat) (s : HdsTables) (acc : PAcc) (pos : Nat) :
    Option Nat × HdsTables × PAcc :=
  let n := d.length
  let acc := acc.noteExempt (decide (pos + 4 ≤ n))
  let afrtLen := readU32 d pos
  if afrtLen > n - pos ∨ n - pos < 9 then (none, s, acc)
  else
    let acc := acc.note (decide (pos + 8 ≤ n))
    if readTag d (pos + 4) ≠ afrtTag then (none, s, acc)
    else
      let p1 := pos + 12
      if n - p1 < 9 then (none, s, acc)
      else
        let acc := acc.note (decide (p1 + 4 ≤ n))
        let s := { s with afrt_timescale := readU32 d p1 }
        let acc := acc.note (decide (p1 + 5 ≤ n))
        let qcount := readU8 d (p1 + 4)
        let found0 := s.quality_segment_modifier.isNone
        match afrtQualityLoop d s.quality_segment_modifier qcount (p1 + 5) found0 acc with
        | (none, acc) => (none, s, acc)
        | (some qres, acc) =>
          let p2 := qres.1
          if n - p2 < 5 then (none, s, acc)
          else
            let acc := acc.note (decide (p2 + 4 ≤ n))
            let entryCount := readU32 d p2
            afrtEntriesLoop d entryCount (p2 + 4) s acc

/-- Server-entry loop of `parse_BootstrapData`: keep the first 10
NUL-terminated server URLs, skip the rest; `none` models the early
returns (cursor at the end, or no NUL found past the cap). -/
def serverLoop (d : List Nat) :
    Nat → Nat → HdsTables → PAcc → Option Nat × HdsTables × PAcc
  | 0, pos, s, acc => (some pos, s, acc)
  | count + 1, pos, s, acc =>
    let n := d.length
    if s.server_entries.length < 10 then
      let acc := acc.note (decide (pos + (n - pos) ≤ n))
      let entry := strndupM d pos (n - pos)
      let s := { s with server_entries := s.server_entries ++ [entry] }
      let pos1 := pos + entry.length + 1
      if pos1 ≥ n then (none, s, acc)
      else serverLoop d count pos1 s acc
    else
      match memchrZ d pos (n - pos) with
      | none => (none, s, acc.note (decide (pos + (n - pos) ≤ n)))
      | some q =>
        let acc := acc.note (decide (q + 1 ≤ n))
        if q + 1 ≥ n then (none, s, acc)
        else serverLoop d count (q + 1) s acc

/-- Quality-entry loop of `parse_BootstrapData`: the strndup copy is
guarded by the modifier being non-null, which the code just cleared, so
only the strnlen cursor advance is observable. -/
def bootQualityLoop (d : List Nat) :
    Nat → Nat → HdsTables → PAcc → Nat × HdsTables × PAcc
  | 0, pos, s, acc => (pos, s, acc)
  | count + 1, pos, s, acc =>
    let n := d.length
    let s := if s.quality_segment_modifier ≠ none then
        { s with quality_segment_modifier := some (strndupM d pos (n - pos)) }
      else s
    let acc := acc.note (decide (pos + (n - pos) ≤ n))
    bootQualityLoop d count (pos + strnlenM d pos (n - pos) + 1) s acc

/-- The asrt-block loop of `parse_BootstrapData`: run `parse_asrt` while
blocks and data remain; a NULL from `parse_asrt` leaves the C cursor
NULL (`none`). -/
def asrtBoxLoop (d : List Nat) :
    Nat → Nat → HdsTables → PAcc → Option Nat × HdsTables × PAcc
  | 0, pos, s, acc => (some pos, s, acc)
  | count + 1, pos, s, acc =>
    if d.length > pos then
      match parse_asrt d s acc pos with
      | (some pos1, s, acc) => asrtBoxLoop d count pos1 s acc
      | (none, s, acc) => (none, s, acc)
    else (some pos, s, acc)

/-- The afrt-block loop of `parse_BootstrapData`. -/
def afrtBoxLoop (d : List Nat) :
    Nat → Nat → HdsTables → PAcc → Option Nat × HdsTables × PAcc
  | 0, pos, s, acc => (some pos, s, acc)
  | count + 1, pos, s, acc =>
    if d.length > pos then
      match parse_afrt d s acc pos with
      | (some pos1, s, acc) => afrtBoxLoop d count pos1 s acc
      | (none, s, acc) => (none, s, acc)
    else (some pos, s, acc)

/-- The asrt/afrt block section of `parse_BootstrapData`, starting at
the asrt-count byte `p5`.  When the asrt loop leaves the cursor NULL,
the C code dereferences it for the afrt count; the model records that
read as out of bounds and stops.  The afrt-count byte itself is read
without any bounds check. -/
def bootBoxes (d : List Nat) (s : HdsTables) (acc : PAcc) (p5 : Nat) :
    HdsTables × PAcc :=
  let n := d.length
  let acc := acc.note (decide (p5 + 1 ≤ n))
  let asrtCount := readU8 d p5
  let s := { s with segment_run_count := 0 }
  match asrtBoxLoop d asrtCount (p5 + 1) s acc with
  | (none, s, acc) => (s, acc.noteExempt false)
  | (some p6, s, acc) =>
    let acc := acc.noteExempt (decide (p6 + 1 ≤ n))
    let afrtCount := readU8 d p6
    let s := { s with fragment_run_count := 0 }
    let r := afrtBoxLoop d afrtCount (p6 + 1) s acc
    (r.2.1, r.2.2)

/-- The DRM-data and metadata section of `parse_BootstrapData`, starting
at cursor `p3` right after the quality entries. -/
def bootDrmMeta (d : List Nat) (s : HdsTables) (acc : PAcc) (p3 : Nat) :
    HdsTables × PAcc :=
  let n := d.length
  if n - p3 < 2 then (s, acc)
  else
    match memchrZ d p3 (n - p3) with
    | none => (s, acc.note (decide (p3 + (n - p3) ≤ n)))
    | some q4 =>
      let acc := acc.note (decide (q4 + 1 ≤ n))
      let p4 := q4 + 1
      if n - p4 < 2 then (s, acc)
      else
        match memchrZ d p4 (n - p4) with
        | none => (s, acc.note (decide (p4 + (n - p4) ≤ n)))
        | some q5 =>
          let acc := acc.note (decide (q5 + 1 ≤ n))
          let p5 := q5 + 1
          if n - p5 < 2 then (s, acc)
          else bootBoxes d s acc p5

/-- The quality-entry section of `parse_BootstrapData`, starting at the
quality count byte `p2`: the modifier is cleared, more than one entry
fails the bootstrap soft, and the copy inside the loop is dead code. -/
def bootQuality (d : List Nat) (s : HdsTables) (acc : PAcc) (p2 : Nat) :
    HdsTables × PAcc :=
  let n := d.length
  if n - p2 < 3 then (s, acc)
  else
    let s := { s with quality_segment_modifier := none }
    let acc := acc.note (decide (p2 + 1 ≤ n))
    let qcount := readU8 d p2
    if qcount > 1 then (s, acc)
    else
      let s := { s with quality_segment_modifier := none }
      let r := bootQualityLoop d qcount (p2 + 1) s acc
      bootDrmMeta d r.2.1 r.2.2 r.1

/-- The server-entry section of `parse_BootstrapData`, starting at the
server count byte `p1`. -/
def bootServers (d : List Nat) (s : HdsTables) (acc : PAcc) (p1 : Nat) :
    HdsTables × PAcc :=
  let n := d.length
  if n - p1 < 4 then (s, acc)
  else
    let acc := acc.note (decide (p1 + 1 ≤ n))
    let serverCount := readU8 d p1
    let s := { s with server_entries := [] }
    match serverLoop d serverCount (p1 + 1) s acc with
    | (none, s, acc) => (s, acc)
    | (some p2, s, acc) => bootQuality d s acc p2

/-- Model of `parse_BootstrapData` (a void function: its observable
result is the mutated stream state), on the blob `d` starting from the
stream state `s0`: the fixed header fields, then the movie identifier
(whose strndup length argument wraps when the blob is shorter than 37
bytes, an unbounded read), then the server, quality, DRM/metadata and
box sections. -/
def parse_BootstrapData (d : List Nat) (s0 : HdsTables) : HdsTables × PAcc :=
  let n := d.length
  let acc : PAcc := {}
  let acc := acc.noteExempt (decide (4 ≤ n))
  let abstLen := readU32 d 0
  if abstLen > n ∨ n < 29 then (s0, acc)
  else
    let acc := acc.note (decide (8 ≤ n))
    if readTag d 4 ≠ abstTag then (s0, acc)
    else
      let acc := acc.note (decide (21 ≤ n))
      let s := { s0 with timescale := readU32 d 17 }
      let acc := acc.note (decide (29 ≤ n))
      let s := { s with live_current_time := readU64 d 21 }
      let acc := acc.noteExempt (decide (37 ≤ n))
      let movieId := strndupM d 37 (n - 37)
      let s := { s with movie_id := movieId }
      bootServers d s acc (37 + movieId.length + 1)

/-! ## Claims C7 and C8: table caps and quality labels -/

/-- Bootstrap blob with exactly one quality label "lo": timescale 100,
movie id "m", no servers, one quality entry, empty DRM and metadata,
no asrt or afrt blocks. -/
def oneQualityBlob : List Nat := [0, 0, 0, 48, 97, 98, 115, 116, 0, 0, 0, 0, 0, 0, 0, 0, 0, 0, 0, 0, 100, 0, 0, 0, 0, 0, 0, 0, 0, 0, 0, 0, 0, 0, 0, 0, 0, 109, 0, 0, 1, 108, 111, 0, 0, 0, 0, 0]
/-- Bootstrap blob declaring two quality entries (count byte 2). -/
def twoQualityBlob : List Nat := [0, 0, 0, 44, 97, 98, 115, 116, 0, 0, 0, 0, 0, 0, 0, 0, 0, 0, 0, 0, 100, 0, 0, 0, 0, 0, 0, 0, 0, 0, 0, 0, 0, 0, 0, 0, 0, 109, 0, 0, 2, 0, 0, 0]
/-- Standalone asrt box declaring 257 segment runs (box length 2073,
tag asrt, flags, quality count 0, entry count 257), with all 2056 entry
bytes present. -/
def asrtOverCapBlob : List Nat :=
  0 :: 0 :: 8 :: 25 :: 97 :: 115 :: 114 :: 116 :: 0 :: 0 :: 0 :: 0 :: 0 ::
    0 :: 0 :: 1 :: 1 :: List.replicate 2056 0
/-- Bootstrap blob declaring 11 one-byte server entries "a", followed by
one asrt block holding the single segment run (first_segment 5,
fragments_per_segment 3). -/
def elevenServerBlob : List Nat := [0, 0, 0, 92, 97, 98, 115, 116, 0, 0, 0, 0, 0, 0, 0, 0, 0, 0, 0, 0, 100, 0, 0, 0, 0, 0, 0, 0, 0, 0, 0, 0, 0, 0, 0, 0, 0, 109, 0, 11, 97, 0, 97, 0, 97, 0, 97, 0, 97, 0, 97, 0, 97, 0, 97, 0, 97, 0, 97, 0, 97, 0, 0, 0, 0, 1, 0, 0, 0, 25, 97, 115, 114, 116, 0, 0, 0, 0, 0, 0, 0, 0, 1, 0, 0, 0, 5, 0, 0, 0, 3, 0]

/-- Helper: the path `parse_asrt` takes on a well-formed asrt box with
no quality entries whose declared segment-run count reaches the cap —
it returns NULL with the stream tables untouched. -/
theorem parse_asrt_over_cap (d : List Nat) (s : HdsTables) (acc : PAcc)
    (pos : Nat)
    (hmod : s.quality_segment_modifier = none)
    (h14 : 14 ≤ d.length - pos)
    (hlen : readU32 d pos ≤ d.length - pos)
    (htag : readTag d (pos + 4) = asrtTag)
    (hq : readU8 d (pos + 12) = 0)
    (h4 : 4 ≤ d.length - (pos + 13))
    (hcnt : 256 ≤ readU32 d (pos + 13))
    (hbound : ¬ (d.length - (pos + 13 + 4) < 8 * readU32 d (pos + 13) % 2 ^ 32)) :
    (parse_asrt d s acc pos).1 = none ∧ (parse_asrt d s acc pos).2.1 = s := by
  unfold parse_asrt
  rw [if_neg (by omega), if_neg (by simp [htag]), hmod, hq]
  simp only [asrtQualityLoop]
  rw [if_neg (by omega), if_neg hbound, if_pos (by omega)]
  exact ⟨rfl, rfl⟩

/-- Counterexample to claim C7: an asrt declaring 257 segment runs (more
than the 256 cap), all entry bytes present, is rejected outright —
`parse_asrt` returns NULL and keeps none of the entries — instead of
truncating to the cap and continuing. -/
theorem asrt_over_cap_rejected :
    (parse_asrt asrtOverCapBlob {} {} 0).1 = none ∧
    (parse_asrt asrtOverCapBlob {} {} 0).2.1.segment_run_count = 0 := by
  have hn : asrtOverCapBlob.length = 2073 := by
    unfold asrtOverCapBlob
    simp only [List.length_cons, List.length_replicate]
  have h32 : readU32 asrtOverCapBlob 0 = 2073 := by decide
  have h32b : readU32 asrtOverCapBlob 13 = 257 := by decide
  have h := parse_asrt_over_cap asrtOverCapBlob {} {} 0 rfl
    (by omega) (by rw [h32]; omega)
    (by decide)
    (by decide)
    (by omega)
    (by rw [h32b]; omega)
    (by rw [h32b, hn]; decide)
  exact ⟨h.1, by rw [h.2]⟩

/-- Amended claim C7: only the server list is truncated at its cap of 10
with parsing continuing (shown on the 11-server bootstrap, whose asrt
block is still parsed afterwards).  The segment-run cap of 256 is
enforced by rejection: an asrt declaring at least 256 runs makes
`parse_asrt` fail, keeping none of that box's entries.  The
fragment-run cap of 10000 is enforced mid-loop: once the table reaches
10000 entries the afrt parse fails, keeping the first 10000 entries but
aborting the rest of the box (and, through the NULL cursor, the
remaining boxes). -/
theorem bootstrap_caps_amended :
    ((parse_BootstrapData elevenServerBlob {}).1.server_entries =
        List.replicate 10 [97] ∧
      (parse_BootstrapData elevenServerBlob {}).1.segment_run_count = 1 ∧
      (parse_BootstrapData elevenServerBlob {}).1.segment_runs =
        [{ first_segment := 5, fragments_per_segment := 3 }]) ∧
    ((parse_asrt asrtOverCapBlob { segment_run_count := 4 } {} 0).1 = none ∧
      (parse_asrt asrtOverCapBlob
          { segment_run_count := 4 } {} 0).2.1.segment_run_count = 4) ∧
    (∀ (d : List Nat) (pos : Nat) (s : HdsTables) (acc : PAcc),
      s.fragment_run_count = 9999 →
      16 ≤ d.length - pos → 16 ≤ d.length - (pos + 16) →
      readU32 d (pos + 12) ≠ 0 →
      (afrtEntriesLoop d 2 pos s acc).1 = none ∧
      (afrtEntriesLoop d 2 pos s acc).2.1.fragment_run_count = 10000 ∧
      (afrtEntriesLoop d 2 pos s acc).2.1.fragment_runs =
        padSet s.fragment_runs 9999
          { fragment_number_start := readU32 d pos,
            fragment_timestamp := readU64 d (pos + 4),
            fragment_duration := readU32 d (pos + 12) } {}) := by
  refine ⟨by decide, ?_, ?_⟩
  · have hn : asrtOverCapBlob.length = 2073 := by
      unfold asrtOverCapBlob
      simp only [List.length_cons, List.length_replicate]
    have h32 : readU32 asrtOverCapBlob 0 = 2073 := by decide
    have h32b : readU32 asrtOverCapBlob 13 = 257 := by decide
    have h := parse_asrt_over_cap asrtOverCapBlob { segment_run_count := 4 } {} 0
      rfl (by omega) (by rw [h32]; omega) (by decide) (by decide) (by omega)
      (by rw [h32b]; omega) (by rw [h32b, hn]; decide)
    exact ⟨h.1, by rw [h.2]⟩
  · intro d pos s acc hcount hb1 hb2 hdur
    have h1 : ¬ (d.length - pos < 16) := by omega
    have h2 : ¬ (d.length - (pos + 16) < 16) := by omega
    have e2 : afrtEntriesLoop d 2 pos s acc =
        afrtEntriesLoop d (1 + 1) pos s acc := rfl
    rw [e2]
    simp only [afrtEntriesLoop]
    rw [if_neg h1, if_neg (by omega : ¬ 10000 ≤ s.fragment_run_count)]
    rw [if_neg hdur]
    rw [if_neg h2, if_pos (by omega : s.fragment_run_count + (0 + 1) ≥ 10000)]
    refine ⟨rfl, by simp [hcount], by simp [hcount]⟩

/-- Witness for the amended claim C7 (its fragment-cap conjunct has
hypotheses): a 32-byte all-ones entry area starting from a table that
already holds 9999 runs — the first entry is appended, the second hits
the cap and the parse fails. -/
theorem bootstrap_caps_amended_witness :
    (afrtEntriesLoop (List.replicate 32 1) 2 0
        { fragment_run_count := 9999 } {}).1 = none ∧
    (afrtEntriesLoop (List.replicate 32 1) 2 0
        { fragment_run_count := 9999 } {}).2.1.fragment_run_count = 10000 :=
  ⟨(bootstrap_caps_amended.2.2 (List.replicate 32 1) 0
      { fragment_run_count := 9999 } {} rfl (by decide) (by decide)
      (by decide)).1,
    (bootstrap_caps_amended.2.2 (List.replicate 32 1) 0
      { fragment_run_count := 9999 } {} rfl (by decide) (by decide)
      (by decide)).2.1⟩

/-! ## Parser invariants: bounds of every checked read, and the quality
modifier -/

/-- Checked-read bookkeeping: a note whose condition holds changes
nothing. -/
theorem PAcc.note_ok (a : PAcc) {P : Prop} [Decidable P] (h : P) :
    (a.note (decide P)).okChecked = a.okChecked := by
  simp [PAcc.note, h]

/-- Exempt reads never touch `okChecked`. -/
theorem PAcc.noteExempt_ok (a : PAcc) (b : Bool) :
    (a.noteExempt b).okChecked = a.okChecked := rfl

/-- Bounds of a successful memchr scan. -/
theorem memchrZ_bound (d : List Nat) :
    ∀ len pos q, memchrZ d pos len = some q → pos ≤ q ∧ q < pos + len := by
  intro len
  induction len with
  | zero => intro pos q h; simp [memchrZ] at h
  | succ len ih =>
    intro pos q h
    by_cases hz : readU8 d pos = 0
    · simp [memchrZ, hz] at h
      omega
    · simp [memchrZ, hz] at h
      have := ih (pos + 1) q h
      omega

/-- The asrt quality loop performs only in-bounds reads and leaves the
cursor strictly inside the blob. -/
theorem asrtQualityLoop_spec (d : List Nat) (modif : Option (List Nat)) :
    ∀ (count pos : Nat) (found : Bool) (acc : PAcc), pos < d.length →
      ((asrtQualityLoop d modif count pos found acc).2.okChecked =
        acc.okChecked) ∧
      (∀ r, (asrtQualityLoop d modif count pos found acc).1 = some r →
        r.1 < d.length) := by
  intro count
  induction count with
  | zero =>
    intro pos found acc hpos
    refine ⟨rfl, ?_⟩
    intro r hr
    simp only [asrtQualityLoop] at hr
    cases hr
    exact hpos
  | succ count ih =>
    intro pos found acc hpos
    simp only [asrtQualityLoop]
    cases hm : memchrZ d pos (d.length - pos) with
    | none =>
      refine ⟨PAcc.note_ok acc (by omega), ?_⟩
      intro r hr
      simp at hr
    | some q =>
      obtain ⟨hq1, hq2⟩ := memchrZ_bound d _ _ _ hm
      by_cases hend : q + 1 ≥ d.length
      · simp only [hend, if_true]
        refine ⟨PAcc.note_ok acc (by omega), ?_⟩
        intro r hr
        simp at hr
      · simp only [hend, if_false]
        have hlt : q + 1 < d.length := by omega
        obtain ⟨g1, g2⟩ := ih (q + 1) _ _ hlt
        exact ⟨g1.trans (PAcc.note_ok acc (by omega)), g2⟩

/-- The afrt quality loop performs only in-bounds reads and leaves the
cursor at or inside the end of the blob. -/
theorem afrtQualityLoop_spec (d : List Nat) (modif : Option (List Nat)) :
    ∀ (count pos : Nat) (found : Bool) (acc : PAcc), pos ≤ d.length →
      ((afrtQualityLoop d modif count pos found acc).2.okChecked =
        acc.okChecked) ∧
      (∀ r, (afrtQualityLoop d modif count pos found acc).1 = some r →
        r.1 ≤ d.length) := by
  intro count
  induction count with
  | zero =>
    intro pos found acc hpos
    refine ⟨rfl, ?_⟩
    intro r hr
    simp only [afrtQualityLoop] at hr
    cases hr
    exact hpos
  | succ count ih =>
    intro pos found acc hpos
    simp only [afrtQualityLoop]
    cases hm : memchrZ d pos (d.length - pos) with
    | none =>
      refine ⟨PAcc.note_ok acc (by omega), ?_⟩
      intro r hr
      simp at hr
    | some q =>
      obtain ⟨hq1, hq2⟩ := memchrZ_bound d _ _ _ hm
      have hle : q + 1 ≤ d.length := by omega
      obtain ⟨g1, g2⟩ := ih (q + 1) _ _ hle
      exact ⟨g1.trans (PAcc.note_ok acc (by omega)), g2⟩

/-- The asrt segment-run entry loop reads inside the pre-checked entry
area, preserves the quality modifier and ends exactly after the
entries. -/
theorem asrtEntriesLoop_spec (d : List Nat) (qf : Bool) :
    ∀ (count pos : Nat) (s : HdsTables) (acc : PAcc),
      pos + 8 * count ≤ d.length →
      ((asrtEntriesLoop d qf count pos s acc).2.2.okChecked =
        acc.okChecked) ∧
      ((asrtEntriesLoop d qf count pos s acc).2.1.quality_segment_modifier =
        s.quality_segment_modifier) ∧
      (asrtEntriesLoop d qf count pos s acc).1 = pos + 8 * count := by
  intro count
  induction count with
  | zero =>
    intro pos s acc hb
    exact ⟨rfl, rfl, by simp [asrtEntriesLoop]⟩
  | succ count ih =>
    intro pos s acc hb
    simp only [asrtEntriesLoop]
    have hstep := fun (s1 : HdsTables) (acc1 : PAcc) =>
      ih (pos + 8) s1 acc1 (by omega)
    refine ⟨?_, ?_, ?_⟩
    · rw [(hstep _ _).1]
      exact PAcc.note_ok acc (by omega)
    · rw [(hstep _ _).2.1]
      cases qf <;> simp
    · rw [(hstep _ _).2.2]
      omega

/-- `parse_asrt` performs only in-bounds reads outside its unchecked
leading length read, preserves the quality modifier, and a non-NULL
result cursor stays within the blob. -/
theorem parse_asrt_spec (d : List Nat) (s : HdsTables) (acc : PAcc)
    (pos : Nat) :
    ((parse_asrt d s acc pos).2.2.okChecked = acc.okChecked) ∧
    ((parse_asrt d s acc pos).2.1.quality_segment_modifier =
      s.quality_segment_modifier) ∧
    (∀ p, (parse_asrt d s acc pos).1 = some p → p ≤ d.length) := by
  unfold parse_asrt
  by_cases h1 : readU32 d pos > d.length - pos ∨ d.length - pos < 14
  · rw [if_pos h1]
    exact ⟨rfl, rfl, fun p hp => by simp at hp⟩
  · rw [if_neg h1]
    push_neg at h1
    by_cases h2 : readTag d (pos + 4) ≠ asrtTag
    · rw [if_pos h2]
      exact ⟨PAcc.note_ok _ (by omega), rfl, fun p hp => by simp at hp⟩
    · rw [if_neg h2]
      dsimp only
      rcases ho : asrtQualityLoop d s.quality_segment_modifier
          (readU8 d (pos + 12)) (pos + 13) s.quality_segment_modifier.isNone
          (((acc.noteExempt (decide (pos + 4 ≤ d.length))).note
            (decide (pos + 8 ≤ d.length))).note
            (decide (pos + 13 ≤ d.length))) with ⟨o, accq⟩
      have hs := asrtQualityLoop_spec d s.quality_segment_modifier
        (readU8 d (pos + 12)) (pos + 13) s.quality_segment_modifier.isNone
        (((acc.noteExempt (decide (pos + 4 ≤ d.length))).note
          (decide (pos + 8 ≤ d.length))).note
          (decide (pos + 13 ≤ d.length))) (by omega)
      rw [ho] at hs
      have haccq : accq.okChecked = acc.okChecked := by
        rw [hs.1, PAcc.note_ok _ (by omega : pos + 13 ≤ d.length),
          PAcc.note_ok _ (by omega : pos + 8 ≤ d.length)]
        rfl
      cases o with
      | none =>
        exact ⟨haccq, rfl, fun p hp => by simp at hp⟩
      | some qres =>
        have hq1 : qres.1 < d.length := hs.2 qres rfl
        dsimp only
        by_cases h3 : d.length - qres.1 < 4
        · rw [if_pos h3]
          exact ⟨haccq, rfl, fun p hp => by simp at hp⟩
        · rw [if_neg h3]
          by_cases h4 : d.length - (qres.1 + 4) <
              8 * readU32 d qres.1 % 2 ^ 32
          · rw [if_pos h4]
            refine ⟨?_, rfl, fun p hp => by simp at hp⟩
            rw [PAcc.note_ok _ (by omega : qres.1 + 4 ≤ d.length)]
            exact haccq
          · rw [if_neg h4]
            by_cases h5 : readU32 d qres.1 ≥ 256
            · rw [if_pos h5]
              refine ⟨?_, rfl, fun p hp => by simp at hp⟩
              rw [PAcc.note_ok _ (by omega : qres.1 + 4 ≤ d.length)]
              exact haccq
            · rw [if_neg h5]
              have hwrap : 8 * readU32 d qres.1 % 2 ^ 32 =
                  8 * readU32 d qres.1 :=
                Nat.mod_eq_of_lt (by omega)
              rw [hwrap] at h4
              obtain ⟨e1, e2, e3⟩ := asrtEntriesLoop_spec d qres.2
                (readU32 d qres.1) (qres.1 + 4) s
                (accq.note (decide (qres.1 + 4 ≤ d.length))) (by omega)
              refine ⟨?_, e2, ?_⟩
              · rw [e1, PAcc.note_ok _ (by omega : qres.1 + 4 ≤ d.length)]
                exact haccq
              · intro p hp
                simp only [Option.some_inj] at hp
                rw [← hp, e3]
                omega

/-- The afrt fragment-run entry loop: every non-exempt read is in bounds
(each entry is preceded by its 16-byte check; only the discontinuity
flag byte is unchecked) and the quality modifier is untouched. -/
theorem afrtEntriesLoop_spec (d : List Nat) :
    ∀ (count pos : Nat) (s : HdsTables) (acc : PAcc),
      ((afrtEntriesLoop d count pos s acc).2.2.okChecked = acc.okChecked) ∧
      ((afrtEntriesLoop d count pos s acc).2.1.quality_segment_modifier =
        s.quality_segment_modifier) := by
  intro count
  induction count with
  | zero => intro pos s acc; exact ⟨rfl, rfl⟩
  | succ count ih =>
    intro pos s acc
    simp only [afrtEntriesLoop]
    by_cases h1 : d.length - pos < 16
    · rw [if_pos h1]
      exact ⟨rfl, rfl⟩
    · rw [if_neg h1]
      by_cases h2 : s.fragment_run_count ≥ 10000
      · rw [if_pos h2]
        exact ⟨rfl, rfl⟩
      · rw [if_neg h2]
        have hstep := fun (s1 : HdsTables) (acc1 : PAcc) (p1 : Nat) =>
          ih p1 s1 acc1
        by_cases h3 : readU32 d (pos + 12) = 0
        · rw [if_pos h3]
          refine ⟨?_, ?_⟩
          · rw [(hstep _ _ _).1, PAcc.noteExempt_ok,
              PAcc.note_ok _ (by omega : pos + 16 ≤ d.length)]
          · rw [(hstep _ _ _).2]
        · rw [if_neg h3]
          refine ⟨?_, ?_⟩
          · rw [(hstep _ _ _).1, PAcc.note_ok _ (by omega : pos + 16 ≤ d.length)]
          · rw [(hstep _ _ _).2]

/-- `parse_afrt` performs only in-bounds reads outside its unchecked
sites and never touches the quality modifier. -/
theorem parse_afrt_spec (d : List Nat) (s : HdsTables) (acc : PAcc)
    (pos : Nat) :
    ((parse_afrt d s acc pos).2.2.okChecked = acc.okChecked) ∧
    ((parse_afrt d s acc pos).2.1.quality_segment_modifier =
      s.quality_segment_modifier) := by
  unfold parse_afrt
  by_cases h1 : readU32 d pos > d.length - pos ∨ d.length - pos < 9
  · rw [if_pos h1]
    exact ⟨rfl, rfl⟩
  · rw [if_neg h1]
    push_neg at h1
    by_cases h2 : readTag d (pos + 4) ≠ afrtTag
    · rw [if_pos h2]
      exact ⟨PAcc.note_ok _ (by omega), rfl⟩
    · rw [if_neg h2]
      dsimp only
      by_cases h3 : d.length - (pos + 12) < 9
      · rw [if_pos h3]
        exact ⟨PAcc.note_ok _ (by omega), rfl⟩
      · rw [if_neg h3]
        rcases ho : afrtQualityLoop d s.quality_segment_modifier
            (readU8 d (pos + 12 + 4)) (pos + 12 + 5)
            s.quality_segment_modifier.isNone
            ((((acc.noteExempt (decide (pos + 4 ≤ d.length))).note
              (decide (pos + 8 ≤ d.length))).note
              (decide (pos + 12 + 4 ≤ d.length))).note
              (decide (pos + 12 + 5 ≤ d.length))) with ⟨o, accq⟩
        have hs := afrtQualityLoop_spec d s.quality_segment_modifier
          (readU8 d (pos + 12 + 4)) (pos + 12 + 5)
          s.quality_segment_modifier.isNone
          ((((acc.noteExempt (decide (pos + 4 ≤ d.length))).note
            (decide (pos + 8 ≤ d.length))).note
            (decide (pos + 12 + 4 ≤ d.length))).note
            (decide (pos + 12 + 5 ≤ d.length))) (by omega)
        rw [ho] at hs
        have haccq : accq.okChecked = acc.okChecked := by
          rw [hs.1, PAcc.note_ok _ (by omega : pos + 12 + 5 ≤ d.length),
            PAcc.note_ok _ (by omega : pos + 12 + 4 ≤ d.length),
            PAcc.note_ok _ (by omega : pos + 8 ≤ d.length)]
          rfl
        cases o with
        | none =>
          exact ⟨haccq, rfl⟩
        | some qres =>
          have hq1 : qres.1 ≤ d.length := hs.2 qres rfl
          dsimp only
          by_cases h4 : d.length - qres.1 < 5
          · rw [if_pos h4]
            exact ⟨haccq, rfl⟩
          · rw [if_neg h4]
            obtain ⟨e1, e2⟩ := afrtEntriesLoop_spec d (readU32 d qres.1)
              (qres.1 + 4) { s with afrt_timescale := readU32 d (pos + 12) }
              ((accq.note (decide (qres.1 + 4 ≤ d.length))))
            refine ⟨?_, ?_⟩
            · rw [e1, PAcc.note_ok _ (by omega : qres.1 + 4 ≤ d.length)]
              exact haccq
            · rw [e2]

/-- The server-entry loop reads only inside the blob (both the strndup
copies and the memchr skips past the cap), keeps the quality modifier,
and a non-NULL cursor stays strictly inside the blob. -/
theorem serverLoop_spec (d : List Nat) :
    ∀ (count pos : Nat) (s : HdsTables) (acc : PAcc), pos < d.length →
      ((serverLoop d count pos s acc).2.2.okChecked = acc.okChecked) ∧
      ((serverLoop d count pos s acc).2.1.quality_segment_modifier =
        s.quality_segment_modifier) ∧
      (∀ p, (serverLoop d count pos s acc).1 = some p → p < d.length) := by
  intro count
  induction count with
  | zero =>
    intro pos s acc hpos
    refine ⟨rfl, rfl, ?_⟩
    intro p hp
    simp only [serverLoop, Option.some_inj] at hp
    omega
  | succ count ih =>
    intro pos s acc hpos
    simp only [serverLoop]
    by_cases hlen : s.server_entries.length < 10
    · rw [if_pos hlen]
      by_cases hend : pos + (strndupM d pos (d.length - pos)).length + 1 ≥
          d.length
      · rw [if_pos hend]
        exact ⟨PAcc.note_ok _ (by omega), rfl, fun p hp => by simp at hp⟩
      · rw [if_neg hend]
        obtain ⟨g1, g2, g3⟩ := ih (pos + (strndupM d pos (d.length - pos)).length + 1)
          { s with server_entries := s.server_entries ++ [strndupM d pos (d.length - pos)] }
          (acc.note (decide (pos + (d.length - pos) ≤ d.length))) (by omega)
        exact ⟨g1.trans (PAcc.note_ok _ (by omega)), g2, g3⟩
    · rw [if_neg hlen]
      cases hm : memchrZ d pos (d.length - pos) with
      | none =>
        exact ⟨PAcc.note_ok _ (by omega), rfl, fun p hp => by simp at hp⟩
      | some q =>
        obtain ⟨hq1, hq2⟩ := memchrZ_bound d _ _ _ hm
        dsimp only
        by_cases hend : q + 1 ≥ d.length
        · rw [if_pos hend]
          exact ⟨PAcc.note_ok _ (by omega), rfl, fun p hp => by simp at hp⟩
        · rw [if_neg hend]
          obtain ⟨g1, g2, g3⟩ := ih (q + 1) s
            (acc.note (decide (q + 1 ≤ d.length))) (by omega)
          exact ⟨g1.trans (PAcc.note_ok _ (by omega)), g2, g3⟩

/-- The bootstrap quality loop (at most one entry): its strnlen scan is
in bounds and, with the modifier just cleared, no label is collected. -/
theorem bootQualityLoop_spec (d : List Nat) (count pos : Nat)
    (s : HdsTables) (acc : PAcc) (hc : count ≤ 1) (hpos : pos ≤ d.length)
    (hmod : s.quality_segment_modifier = none) :
    ((bootQualityLoop d count pos s acc).2.2.okChecked = acc.okChecked) ∧
    ((bootQualityLoop d count pos s acc).2.1.quality_segment_modifier =
      none) := by
  cases count with
  | zero => exact ⟨rfl, hmod⟩
  | succ k =>
    have hk : k = 0 := by omega
    subst hk
    simp only [bootQualityLoop, hmod]
    simp only [ne_eq, not_true_eq_false, if_neg, ite_false]
    exact ⟨PAcc.note_ok _ (by omega), hmod⟩

/-- The asrt-block loop: in-bounds reads and untouched modifier. -/
theorem asrtBoxLoop_spec (d : List Nat) :
    ∀ (count pos : Nat) (s : HdsTables) (acc : PAcc),
      ((asrtBoxLoop d count pos s acc).2.2.okChecked = acc.okChecked) ∧
      ((asrtBoxLoop d count pos s acc).2.1.quality_segment_modifier =
        s.quality_segment_modifier) := by
  intro count
  induction count with
  | zero => intro pos s acc; exact ⟨rfl, rfl⟩
  | succ count ih =>
    intro pos s acc
    simp only [asrtBoxLoop]
    by_cases hg : d.length > pos
    · rw [if_pos hg]
      rcases hp : parse_asrt d s acc pos with ⟨o, s1, acc1⟩
      have hps := parse_asrt_spec d s acc pos
      rw [hp] at hps
      cases o with
      | none => exact ⟨hps.1, hps.2.1⟩
      | some p1 =>
        obtain ⟨g1, g2⟩ := ih p1 s1 acc1
        exact ⟨g1.trans hps.1, g2.trans hps.2.1⟩
    · rw [if_neg hg]
      exact ⟨rfl, rfl⟩

/-- The afrt-block loop: in-bounds reads and untouched modifier. -/
theorem afrtBoxLoop_spec (d : List Nat) :
    ∀ (count pos : Nat) (s : HdsTables) (acc : PAcc),
      ((afrtBoxLoop d count pos s acc).2.2.okChecked = acc.okChecked) ∧
      ((afrtBoxLoop d count pos s acc).2.1.quality_segment_modifier =
        s.quality_segment_modifier) := by
  intro count
  induction count with
  | zero => intro pos s acc; exact ⟨rfl, rfl⟩
  | succ count ih =>
    intro pos s acc
    simp only [afrtBoxLoop]
    by_cases hg : d.length > pos
    · rw [if_pos hg]
      rcases hp : parse_afrt d s acc pos with ⟨o, s1, acc1⟩
      have hps := parse_afrt_spec d s acc pos
      rw [hp] at hps
      cases o with
      | none => exact ⟨hps.1, hps.2⟩
      | some p1 =>
        obtain ⟨g1, g2⟩ := ih p1 s1 acc1
        exact ⟨g1.trans hps.1, g2.trans hps.2⟩
    · rw [if_neg hg]
      exact ⟨rfl, rfl⟩

/-- The box section: every non-exempt read in bounds, and the quality
modifier untouched. -/
theorem bootBoxes_spec (d : List Nat) (s : HdsTables) (acc : PAcc)
    (p5 : Nat) (h : p5 + 1 ≤ d.length) :
    ((bootBoxes d s acc p5).2.okChecked = acc.okChecked) ∧
    ((bootBoxes d s acc p5).1.quality_segment_modifier =
      s.quality_segment_modifier) := by
  unfold bootBoxes
  dsimp only
  rcases ha : asrtBoxLoop d (readU8 d p5) (p5 + 1)
      { s with segment_run_count := 0 }
      (acc.note (decide (p5 + 1 ≤ d.length))) with ⟨o, s1, acc1⟩
  have has := asrtBoxLoop_spec d (readU8 d p5) (p5 + 1)
    { s with segment_run_count := 0 } (acc.note (decide (p5 + 1 ≤ d.length)))
  rw [ha] at has
  have hacc1 : acc1.okChecked = acc.okChecked := by
    rw [has.1, PAcc.note_ok _ h]
  cases o with
  | none => exact ⟨hacc1, has.2⟩
  | some p6 =>
    obtain ⟨g1, g2⟩ := afrtBoxLoop_spec d (readU8 d p6) (p6 + 1)
      { s1 with fragment_run_count := 0 }
      (acc1.noteExempt (decide (p6 + 1 ≤ d.length)))
    refine ⟨?_, ?_⟩
    · rw [g1, PAcc.noteExempt_ok]
      exact hacc1
    · exact g2.trans has.2

/-- The DRM/metadata section: in-bounds reads and untouched modifier. -/
theorem bootDrmMeta_spec (d : List Nat) (s : HdsTables) (acc : PAcc)
    (p3 : Nat) :
    ((bootDrmMeta d s acc p3).2.okChecked = acc.okChecked) ∧
    ((bootDrmMeta d s acc p3).1.quality_segment_modifier =
      s.quality_segment_modifier) := by
  unfold bootDrmMeta
  by_cases h1 : d.length - p3 < 2
  · rw [if_pos h1]
    exact ⟨rfl, rfl⟩
  · rw [if_neg h1]
    cases hm : memchrZ d p3 (d.length - p3) with
    | none => exact ⟨PAcc.note_ok _ (by omega), rfl⟩
    | some q4 =>
      obtain ⟨hq1, hq2⟩ := memchrZ_bound d _ _ _ hm
      dsimp only
      by_cases h2 : d.length - (q4 + 1) < 2
      · rw [if_pos h2]
        exact ⟨PAcc.note_ok _ (by omega), rfl⟩
      · rw [if_neg h2]
        cases hm2 : memchrZ d (q4 + 1) (d.length - (q4 + 1)) with
        | none =>
          refine ⟨?_, rfl⟩
          rw [PAcc.note_ok _ (by omega), PAcc.note_ok _ (by omega)]
        | some q5 =>
          obtain ⟨hr1, hr2⟩ := memchrZ_bound d _ _ _ hm2
          dsimp only
          by_cases h3 : d.length - (q5 + 1) < 2
          · rw [if_pos h3]
            refine ⟨?_, rfl⟩
            rw [PAcc.note_ok _ (by omega), PAcc.note_ok _ (by omega)]
          · rw [if_neg h3]
            obtain ⟨g1, g2⟩ := bootBoxes_spec d s
              ((acc.note (decide (q4 + 1 ≤ d.length))).note
                (decide (q5 + 1 ≤ d.length))) (q5 + 1) (by omega)
            refine ⟨?_, g2⟩
            rw [g1, PAcc.note_ok _ (by omega), PAcc.note_ok _ (by omega)]

/-- The quality section: in-bounds reads; the modifier ends cleared
(when the section is reached at all) or untouched. -/
theorem bootQuality_spec (d : List Nat) (s : HdsTables) (acc : PAcc)
    (p2 : Nat) :
    ((bootQuality d s acc p2).2.okChecked = acc.okChecked) ∧
    ((bootQuality d s acc p2).1.quality_segment_modifier = none ∨
      (bootQuality d s acc p2).1.quality_segment_modifier =
        s.quality_segment_modifier) := by
  unfold bootQuality
  by_cases h1 : d.length - p2 < 3
  · rw [if_pos h1]
    exact ⟨rfl, Or.inr rfl⟩
  · rw [if_neg h1]
    dsimp only
    by_cases h2 : readU8 d p2 > 1
    · rw [if_pos h2]
      exact ⟨PAcc.note_ok _ (by omega), Or.inl rfl⟩
    · rw [if_neg h2]
      obtain ⟨g1, g2⟩ := bootQualityLoop_spec d (readU8 d p2) (p2 + 1)
        { s with quality_segment_modifier := none }
        (acc.note (decide (p2 + 1 ≤ d.length))) (by omega) (by omega) rfl
      obtain ⟨m1, m2⟩ := bootDrmMeta_spec d
        (bootQualityLoop d (readU8 d p2) (p2 + 1)
          { s with quality_segment_modifier := none }
          (acc.note (decide (p2 + 1 ≤ d.length)))).2.1
        (bootQualityLoop d (readU8 d p2) (p2 + 1)
          { s with quality_segment_modifier := none }
          (acc.note (decide (p2 + 1 ≤ d.length)))).2.2
        (bootQualityLoop d (readU8 d p2) (p2 + 1)
          { s with quality_segment_modifier := none }
          (acc.note (decide (p2 + 1 ≤ d.length)))).1
      refine ⟨?_, Or.inl ?_⟩
      · rw [m1, g1, PAcc.note_ok _ (by omega)]
      · rw [m2, g2]

/-- The server section: in-bounds reads; the modifier ends cleared or
untouched. -/
theorem bootServers_spec (d : List Nat) (s : HdsTables) (acc : PAcc)
    (p1 : Nat) :
    ((bootServers d s acc p1).2.okChecked = acc.okChecked) ∧
    ((bootServers d s acc p1).1.quality_segment_modifier = none ∨
      (bootServers d s acc p1).1.quality_segment_modifier =
        s.quality_segment_modifier) := by
  unfold bootServers
  by_cases h1 : d.length - p1 < 4
  · rw [if_pos h1]
    exact ⟨rfl, Or.inr rfl⟩
  · rw [if_neg h1]
    dsimp only
    rcases hsl : serverLoop d (readU8 d p1) (p1 + 1)
        { s with server_entries := [] }
        (acc.note (decide (p1 + 1 ≤ d.length))) with ⟨o, s1, acc1⟩
    have hs := serverLoop_spec d (readU8 d p1) (p1 + 1)
      { s with server_entries := [] }
      (acc.note (decide (p1 + 1 ≤ d.length))) (by omega)
    rw [hsl] at hs
    have hacc1 : acc1.okChecked = acc.okChecked := by
      rw [hs.1, PAcc.note_ok _ (by omega)]
    cases o with
    | none => exact ⟨hacc1, Or.inr hs.2.1⟩
    | some p2 =>
      obtain ⟨q1, q2⟩ := bootQuality_spec d s1 acc1 p2
      refine ⟨q1.trans hacc1, ?_⟩
      cases q2 with
      | inl h => exact Or.inl h
      | inr h => exact Or.inr (h.trans hs.2.1)

/-- Top-level bootstrap parse: every read outside the unchecked sites is
in bounds, and the quality modifier ends cleared or untouched. -/
theorem parse_BootstrapData_spec (d : List Nat) (s0 : HdsTables) :
    ((parse_BootstrapData d s0).2.okChecked = true) ∧
    ((parse_BootstrapData d s0).1.quality_segment_modifier = none ∨
      (parse_BootstrapData d s0).1.quality_segment_modifier =
        s0.quality_segment_modifier) := by
  unfold parse_BootstrapData
  by_cases h1 : readU32 d 0 > d.length ∨ d.length < 29
  · rw [if_pos h1]
    exact ⟨rfl, Or.inr rfl⟩
  · rw [if_neg h1]
    push_neg at h1
    by_cases h2 : readTag d 4 ≠ abstTag
    · rw [if_pos h2]
      refine ⟨?_, Or.inr rfl⟩
      rw [PAcc.note_ok _ (by omega : (8 : Nat) ≤ d.length)]
      rfl
    · rw [if_neg h2]
      dsimp only
      obtain ⟨g1, g2⟩ := bootServers_spec d
        { s0 with timescale := readU32 d 17, live_current_time := readU64 d 21,
                  movie_id := strndupM d 37 (d.length - 37) }
        (((((PAcc.mk true true).noteExempt (decide (4 ≤ d.length))).note
          (decide (8 ≤ d.length))).note (decide (21 ≤ d.length))).note
          (decide (29 ≤ d.length)) |>.noteExempt (decide (37 ≤ d.length)))
        (37 + (strndupM d 37 (d.length - 37)).length + 1)
      refine ⟨?_, g2⟩
      rw [g1, PAcc.noteExempt_ok, PAcc.note_ok _ (by omega : (29 : Nat) ≤ d.length),
        PAcc.note_ok _ (by omega : (21 : Nat) ≤ d.length),
        PAcc.note_ok _ (by omega : (8 : Nat) ≤ d.length)]
      rfl

/-! ## Claim C5: bounds safety of the bootstrap parsers -/

/-- Counterexample to claim C5: on the one-byte blob `[0]`, the parser's
very first act is the 4-byte box-length read U32_AT(data_p), performed
before any bounds check, reading three bytes past `data_end`. -/
theorem parse_bootstrap_reads_past_end :
    (parse_BootstrapData [0] {}).2.okAll = false := by decide

/-- Amended claim C5: every multi-byte integer or string read of the
abst/asrt/afrt parsers other than the unchecked sites — the leading
4-byte box-length reads of abst, asrt and afrt, the movie-identifier
read (whose length argument wraps for blobs of 29 to 36 bytes), the
afrt discontinuity-flag byte, and the afrt-count byte after the asrt
blocks (a NULL dereference when an asrt fails) — is preceded by a check
that enough bytes remain, and never touches a byte outside
`[data, data_end)`; on shortfall the parser stops with the partial
tables collected so far. -/
theorem parse_bootstrap_checked_reads_in_bounds (d : List Nat)
    (s0 : HdsTables) :
    (parse_BootstrapData d s0).2.okChecked = true :=
  (parse_BootstrapData_spec d s0).1

/-! ## Claim C8: quality entries of the bootstrap -/

/-- Counterexample to claim C8: on a bootstrap carrying exactly one
quality label "lo" (bytes 6C 6F), the stream's quality modifier is not
set to that label — it stays null, because the copy is guarded by the
modifier being non-null right after it was cleared. -/
theorem bootstrap_one_quality_label_not_collected :
    (parse_BootstrapData oneQualityBlob {}).1.quality_segment_modifier
      = none ∧
    (parse_BootstrapData oneQualityBlob {}).1.quality_segment_modifier
      ≠ some [108, 111] := by decide

/-- Amended claim C8: a quality-entry count above 1 fails the bootstrap
soft (on a two-entry blob the box sections are never parsed: the
segment-run count keeps its prior value); and no quality label is ever
collected — for every blob, a stream whose modifier is null before the
parse still has a null modifier afterwards, even when exactly one label
is present. -/
theorem bootstrap_quality_never_collected (d : List Nat) (s0 : HdsTables)
    (h : s0.quality_segment_modifier = none) :
    (parse_BootstrapData d s0).1.quality_segment_modifier = none ∧
    ((parse_BootstrapData twoQualityBlob
        { segment_run_count := 7 }).1.segment_run_count = 7 ∧
      (parse_BootstrapData twoQualityBlob
        { segment_run_count := 7 }).1.quality_segment_modifier = none) := by
  refine ⟨?_, by decide⟩
  cases (parse_BootstrapData_spec d s0).2 with
  | inl hl => exact hl
  | inr hr => exact hr.trans h

/-- Witness for the amended claim C8, at the single-label blob and a
fresh stream. -/
theorem bootstrap_quality_never_collected_witness :
    (parse_BootstrapData oneQualityBlob {}).1.quality_segment_modifier
      = none :=
  (bootstrap_quality_never_collected oneQualityBlob {} rfl).1
